import Mathlib

/-!
Verification of the proxyd `Start` start-up pipeline (src/proxyd/proxyd.go).

The embedding translates `Start` and `makeUint64LastValueFn` into pure Lean
functions.  External collaborators that the spec places out of scope
(the Redis client construction, TLS file parsing, the chain client dial, the
HTTP/WS listeners, the metrics server and `NewServer` itself) cannot fail for
configuration reasons; they are modelled as succeeding, so the embedded
pipeline is a total function of the configuration and the process environment.
Go maps are modelled as association lists (first binding wins, as a Go map has
no duplicate keys), error values as a structured `StartError` type with one
constructor per error site of the source, and Go's package-level error
singletons (`ErrOverRateLimit`, `ErrMethodNotWhitelisted`,
`ErrTooManyBatchRequests`), whose `Message` fields `Start` assigns, as an
explicit `ErrorGlobals` state threaded through `start`.
-/

namespace Proxyd

/-- The process environment, with Go's `os.Getenv` semantics: total, an unset
variable reads as the empty string. -/
abbrev Env := String → String

/-- One constructor per error return site of `Start` that is decided by the
configuration (errors of external collaborators are out of scope). -/
inductive StartError where
  | noBackends
  | noBackendGroups
  | noRPCMethodMappings
  | noneAuthKey
  | envVarNotFound (ref : String)
  | redisURLRequired
  | senderRateLimitLimitInvalid
  | senderRateLimitIntervalInvalid
  | emptyRPCURL (backend : String)
  | undefinedBackend (backend : String)
  | undefinedWSGroup (group : String)
  | wsPortWithoutGroup
  | undefinedBackendGroup (group : String)
  | blockSyncRequired
  deriving DecidableEq

/-- `strings.HasPrefix value "$"`: the string is nonempty and begins with `$`. -/
def startsWithDollar (s : String) : Bool :=
  match s.data with
  | [] => false
  | c :: _ => c == '$'

/-- `strings.TrimPrefix value "$"` for a value that begins with `$`. -/
def dropDollar (s : String) : String := ⟨s.data.drop 1⟩

/-- Modelled from the spec: `ReadFromEnvOrConfig` is declared in the
repository's config source file, which is not among the given sources; only
its call sites appear in `Start`.  Per the spec, "Any config value may be
referenced as `$ENV_VAR`, resolved from the environment at start", and
start-up exits non-zero when a referenced value is missing.  So a value of the
form `$NAME` resolves to the environment variable `NAME` (an error when it is
unset), and any other value resolves to itself. -/
def ReadFromEnvOrConfig (env : Env) (value : String) : Except StartError String :=
  if startsWithDollar value then
    if env (dropDollar value) = "" then .error (.envVarNotFound value)
    else .ok (env (dropDollar value))
  else .ok value

/-- The per-backend configuration fields that `Start` reads on fallible or
claim-relevant paths.  The remaining tuning fields (timeouts, retry budget,
response size, latency and error-rate thresholds, max RPS, max WS conns, TLS
files, XFF stripping, peer-count skip) only append construction options to the
backend and cannot fail for configuration reasons. -/
structure BackendConfig where
  rpcURL : String
  wsURL : String
  username : String
  password : String
  deriving DecidableEq

structure BackendGroupConfig where
  backends : List String
  consensusAware : Bool
  consensusAsyncHandler : String
  consensusBanPeriod : Int
  consensusMaxUpdateThreshold : Int
  consensusMaxBlockLag : Nat
  consensusMinPeerCount : Int
  deriving DecidableEq

/-- The server options `Start` itself branches on; the remaining ones are
passed through to the HTTP layer. -/
structure ServerConfig where
  wsPort : Nat
  maxConcurrentRPCs : Int
  deriving DecidableEq

structure CacheConfig where
  enabled : Bool
  blockSyncRPCURL : String
  numBlockConfirmations : Nat
  deriving DecidableEq

structure RedisConfig where
  url : String
  deriving DecidableEq

structure RateLimitConfig where
  useRedis : Bool
  enableBackendRateLimiter : Bool
  errorMessage : String
  deriving DecidableEq

/-- `Interval` carries Go `time.Duration` semantics: an integer count of
nanoseconds. -/
structure SenderRateLimitConfig where
  enabled : Bool
  limit : Int
  interval : Int
  deriving DecidableEq

structure BatchConfig where
  errorMessage : String
  deriving DecidableEq

structure Config where
  backends : List (String × BackendConfig)
  backendGroups : List (String × BackendGroupConfig)
  rpcMethodMappings : List (String × String)
  authentication : Option (List (String × String))
  redis : RedisConfig
  rateLimit : RateLimitConfig
  whitelistErrorMessage : String
  batchConfig : BatchConfig
  senderRateLimit : SenderRateLimitConfig
  server : ServerConfig
  wsBackendGroup : String
  cache : CacheConfig
  deriving DecidableEq

/-- The three limiter implementations `Start` chooses between. -/
inductive BackendRateLimiter where
  | redisRateLimiter
  | localBackendRateLimiter
  | noopBackendRateLimiter
  deriving DecidableEq

/-- The `Message` fields of the package-level error singletons that `Start`
assigns into. -/
structure ErrorGlobals where
  overRateLimitMessage : String
  methodNotWhitelistedMessage : String
  tooManyBatchRequestsMessage : String
  deriving DecidableEq

structure Backend where
  name : String
  rpcURL : String
  wsURL : String
  deriving DecidableEq

/-- The consensus-poller construction options `Start` may append. -/
inductive ConsensusOpt where
  | withAsyncHandlerNoop
  | withBanPeriod (d : Int)
  | withMaxUpdateThreshold (d : Int)
  | withMaxBlockLag (lag : Nat)
  | withMinPeerCount (c : Nat)
  deriving DecidableEq

structure ConsensusPoller where
  opts : List ConsensusOpt
  deriving DecidableEq

structure BackendGroup where
  name : String
  backends : List Backend
  consensus : Option ConsensusPoller
  deriving DecidableEq

/-- The two cache stores sharing one interface. -/
inductive CacheKind where
  | memoryCache
  | redisCache
  deriving DecidableEq

/-- `newCacheWithCompression` wrapping a chosen store. -/
inductive CacheStore where
  | withCompression (inner : CacheKind)
  deriving DecidableEq

structure RPCCache where
  store : CacheStore
  numBlockConfirmations : Nat
  deriving DecidableEq

/-- What a successful `Start` hands to `NewServer` and to the caller, as far
as the configuration decides it. -/
structure StartResult where
  backendRateLimiter : BackendRateLimiter
  semaphoreCapacity : Int
  backends : List (String × Backend)
  groups : List (String × BackendGroup)
  wsGroup : Option String
  resolvedAuth : Option (List (String × String))
  rpcCache : Option RPCCache
  deriving DecidableEq

/-- Go `time.Second` as a `time.Duration` (nanoseconds). -/
def oneSecond : Int := 1000000000

/-- `math.MaxInt64` from go-ethereum's common/math. -/
def maxInt64 : Int := 2 ^ 63 - 1

/-- A Go `for` loop over a list that builds a result and returns early on the
first error. -/
def exceptMapM {ε α β : Type} (f : α → Except ε β) : List α → Except ε (List β)
  | [] => .ok []
  | a :: as =>
    match f a with
    | .error e => .error e
    | .ok b =>
      match exceptMapM f as with
      | .error e => .error e
      | .ok bs => .ok (b :: bs)

/-- Iterating Go's possibly-nil `config.Authentication` map: a nil map
iterates zero times. -/
def authEntries (cfg : Config) : List (String × String) := cfg.authentication.getD []

/-- `redisClient != nil` after the construction block: the client is built
exactly when `config.Redis.URL` is nonempty (client construction itself is an
external collaborator, modelled as succeeding). -/
def redisConfigured (cfg : Config) : Bool := cfg.redis.url ≠ ""

/-- Lines 54-65: the backend rate limiter selection. -/
def chooseBackendRateLimiter (cfg : Config) : BackendRateLimiter :=
  if cfg.rateLimit.enableBackendRateLimiter then
    if redisConfigured cfg then .redisRateLimiter else .localBackendRateLimiter
  else .noopBackendRateLimiter

/-- Lines 21-65 of `Start`: the checks and choices made before the global
error messages are assigned. -/
def startPreGlobals (cfg : Config) (env : Env) : Except StartError BackendRateLimiter :=
  if cfg.backends.isEmpty then .error .noBackends
  else if cfg.backendGroups.isEmpty then .error .noBackendGroups
  else if cfg.rpcMethodMappings.isEmpty then .error .noRPCMethodMappings
  else if (authEntries cfg).any (fun p => p.1 == "none") then .error .noneAuthKey
  else
    match (if redisConfigured cfg then (ReadFromEnvOrConfig env cfg.redis.url).map some
           else .ok none : Except StartError (Option String)) with
    | .error e => .error e
    | .ok _ =>
      if !redisConfigured cfg && cfg.rateLimit.useRedis then .error .redisURLRequired
      else .ok (chooseBackendRateLimiter cfg)

/-- Lines 67-79: assignment of configured messages into the global error
singletons, each only when the configured string is nonempty. -/
def applyErrorMessages (cfg : Config) (g : ErrorGlobals) : ErrorGlobals :=
  let g1 := if cfg.rateLimit.errorMessage ≠ ""
            then { g with overRateLimitMessage := cfg.rateLimit.errorMessage } else g
  let g2 := if cfg.whitelistErrorMessage ≠ ""
            then { g1 with methodNotWhitelistedMessage := cfg.whitelistErrorMessage } else g1
  if cfg.batchConfig.errorMessage ≠ ""
  then { g2 with tooManyBatchRequestsMessage := cfg.batchConfig.errorMessage } else g2

/-- One iteration of the backend construction loop (lines 98-166): resolve the
RPC and WS URLs, reject an empty RPC URL, resolve the password when set. -/
def resolveBackend (env : Env) (name : String) (bc : BackendConfig) : Except StartError Backend :=
  match ReadFromEnvOrConfig env bc.rpcURL with
  | .error e => .error e
  | .ok rpcURL =>
    match ReadFromEnvOrConfig env bc.wsURL with
    | .error e => .error e
    | .ok wsURL =>
      if rpcURL = "" then .error (.emptyRPCURL name)
      else
        match (if bc.password ≠ "" then ReadFromEnvOrConfig env bc.password else .ok "") with
        | .error e => .error e
        | .ok _ => .ok { name := name, rpcURL := rpcURL, wsURL := wsURL }

def resolveBackends (env : Env) (l : List (String × BackendConfig)) :
    Except StartError (List (String × Backend)) :=
  exceptMapM (fun p => (resolveBackend env p.1 p.2).map (fun b => (p.1, b))) l

/-- One iteration of the group construction loop (lines 169-182). -/
def buildGroup (backendsByName : List (String × Backend)) (bgName : String)
    (bg : BackendGroupConfig) : Except StartError BackendGroup :=
  match exceptMapM (fun bName =>
      match List.lookup bName backendsByName with
      | none => Except.error (StartError.undefinedBackend bName)
      | some b => Except.ok b) bg.backends with
  | .error e => .error e
  | .ok backs => .ok { name := bgName, backends := backs, consensus := none }

def buildGroups (backendsByName : List (String × Backend))
    (l : List (String × BackendGroupConfig)) :
    Except StartError (List (String × BackendGroup)) :=
  exceptMapM (fun p => (buildGroup backendsByName p.1 p.2).map (fun g => (p.1, g))) l

/-- Lines 184-190: resolve the configured WS backend group. -/
def resolveWSGroup (cfg : Config) (groups : List (String × BackendGroup)) :
    Except StartError (Option String) :=
  if cfg.wsBackendGroup ≠ "" then
    match List.lookup cfg.wsBackendGroup groups with
    | none => .error (.undefinedWSGroup cfg.wsBackendGroup)
    | some _ => .ok (some cfg.wsBackendGroup)
  else .ok none

/-- Lines 196-200: every RPC method mapping must name a defined group. -/
def checkMappings (groups : List (String × BackendGroup))
    (mappings : List (String × String)) : Except StartError Unit :=
  match exceptMapM (fun m =>
      match List.lookup m.2 groups with
      | none => Except.error (StartError.undefinedBackendGroup m.2)
      | some _ => Except.ok ()) mappings with
  | .error e => .error e
  | .ok _ => .ok ()

/-- Lines 202-213: resolve authentication secrets when the map is non-nil. -/
def resolveAuth (env : Env) (auth : Option (List (String × String))) :
    Except StartError (Option (List (String × String))) :=
  match auth with
  | none => .ok none
  | some entries =>
    match exceptMapM (fun p => (ReadFromEnvOrConfig env p.1).map (fun s => (s, p.2))) entries with
    | .error e => .error e
    | .ok resolved => .ok (some resolved)

/-- Lines 215-251: the cache block.  When enabled, a block-sync URL is
required and resolved; the store is Redis-backed exactly when a Redis client
was configured, in-memory otherwise; the RPC cache is built over the
compression wrapper of that store (the chain-client dial is external and
modelled as succeeding). -/
def buildRPCCache (env : Env) (cfg : Config) : Except StartError (Option RPCCache) :=
  if cfg.cache.enabled then
    if cfg.cache.blockSyncRPCURL = "" then .error .blockSyncRequired
    else
      match ReadFromEnvOrConfig env cfg.cache.blockSyncRPCURL with
      | .error e => .error e
      | .ok _ =>
        .ok (some { store := CacheStore.withCompression
                      (if redisConfigured cfg then CacheKind.redisCache else CacheKind.memoryCache),
                    numBlockConfirmations := cfg.cache.numBlockConfirmations })
  else .ok none

/-- Lines 320-337: the consensus options appended for one consensus-aware
group. -/
def consensusOptsFor (bgcfg : BackendGroupConfig) : List ConsensusOpt :=
  (if bgcfg.consensusAsyncHandler = "noop" then [ConsensusOpt.withAsyncHandlerNoop] else []) ++
  (if bgcfg.consensusBanPeriod > 0 then [ConsensusOpt.withBanPeriod bgcfg.consensusBanPeriod] else []) ++
  (if bgcfg.consensusMaxUpdateThreshold > 0
   then [ConsensusOpt.withMaxUpdateThreshold bgcfg.consensusMaxUpdateThreshold] else []) ++
  (if bgcfg.consensusMaxBlockLag > 0
   then [ConsensusOpt.withMaxBlockLag bgcfg.consensusMaxBlockLag] else []) ++
  (if bgcfg.consensusMinPeerCount > 0
   then [ConsensusOpt.withMinPeerCount bgcfg.consensusMinPeerCount.toNat] else [])

/-- Lines 315-341, one group: create and store a poller exactly when the
group's config sets `ConsensusAware`. -/
def attachConsensusEntry (cfgGroups : List (String × BackendGroupConfig))
    (p : String × BackendGroup) : String × BackendGroup :=
  match List.lookup p.1 cfgGroups with
  | some bgcfg =>
    if bgcfg.consensusAware
    then (p.1, { p.2 with consensus := some { opts := consensusOptsFor bgcfg } })
    else p
  | none => p

def attachConsensus (cfgGroups : List (String × BackendGroupConfig))
    (groups : List (String × BackendGroup)) : List (String × BackendGroup) :=
  groups.map (attachConsensusEntry cfgGroups)

/-- Lines 81-361 of `Start`, after the global error messages are assigned:
the sender-rate-limit checks, the semaphore capacity, the backend and group
construction, the WS group and mapping checks, auth resolution, the cache
block and the consensus pollers. -/
def startPostGlobals (cfg : Config) (env : Env) (lim : BackendRateLimiter) :
    Except StartError StartResult :=
  if cfg.senderRateLimit.enabled && decide (cfg.senderRateLimit.limit ≤ 0) then
    .error .senderRateLimitLimitInvalid
  else if cfg.senderRateLimit.enabled && decide (cfg.senderRateLimit.interval < oneSecond) then
    .error .senderRateLimitIntervalInvalid
  else
    match resolveBackends env cfg.backends with
    | .error e => .error e
    | .ok backendsByName =>
      match buildGroups backendsByName cfg.backendGroups with
      | .error e => .error e
      | .ok groups =>
        match resolveWSGroup cfg groups with
        | .error e => .error e
        | .ok wsGroup =>
          if wsGroup.isNone && (cfg.server.wsPort != 0) then .error .wsPortWithoutGroup
          else
            match checkMappings groups cfg.rpcMethodMappings with
            | .error e => .error e
            | .ok _ =>
              match resolveAuth env cfg.authentication with
              | .error e => .error e
              | .ok resolvedAuth =>
                match buildRPCCache env cfg with
                | .error e => .error e
                | .ok rpcCache =>
                  .ok { backendRateLimiter := lim,
                        semaphoreCapacity :=
                          if cfg.server.maxConcurrentRPCs = 0 then maxInt64
                          else cfg.server.maxConcurrentRPCs,
                        backends := backendsByName,
                        groups := attachConsensus cfg.backendGroups groups,
                        wsGroup := wsGroup,
                        resolvedAuth := resolvedAuth,
                        rpcCache := rpcCache }

/-- `Start`: the pre-globals stage, then the assignment into the error
globals, then the rest.  The first component is the state of the global error
messages when `Start` returns. -/
def start (cfg : Config) (env : Env) (g : ErrorGlobals) :
    ErrorGlobals × Except StartError StartResult :=
  match startPreGlobals cfg env with
  | .error e => (g, .error e)
  | .ok lim => (applyErrorMessages cfg g, startPostGlobals cfg env lim)

def isOkE {ε α : Type} : Except ε α → Bool
  | .ok _ => true
  | .error _ => false

/-- Decimal digit test for `strconv.ParseUint(s, 10, 64)`. -/
def isDecimalDigit (c : Char) : Bool := decide ('0' ≤ c) && decide (c ≤ '9')

def digitsToNat (l : List Char) : Nat :=
  l.foldl (fun acc c => acc * 10 + (c.toNat - 48)) 0

/-- `strconv.ParseUint(s, 10, 64)`: nonempty, decimal digits only (base 10
admits no sign, no base prefix, no underscores), and the value must fit in 64
bits (`none` covers both the syntax and the range error). -/
def parseUint64 (s : String) : Option Nat :=
  match s.data with
  | [] => none
  | ds =>
    if ds.all isDecimalDigit then
      if digitsToNat ds < 2 ^ 64 then some (digitsToNat ds) else none
    else none

/-- Lines 392-405: the reader closure returned by `makeUint64LastValueFn`, as
a function of the outcome of `lvc.Read` (the last-value cache itself is
stateful and out of scope).  Returns the Go pair `(uint64, error)`, the error
modelled as `Option String`. -/
def uint64LastValueRead (key : String) (readResult : Except String String) :
    Nat × Option String :=
  match readResult with
  | .error e => (0, some e)
  | .ok value =>
    if value = "" then (0, some (key ++ " is unavailable"))
    else
      match parseUint64 value with
      | none => (0, some ("could not parse " ++ value ++ " as uint64"))
      | some n => (n, none)

/-! Concrete configurations used to instantiate the theorems. -/

def emptyEnv : Env := fun _ => ""

def defaultGlobals : ErrorGlobals :=
  { overRateLimitMessage := "over rate limit",
    methodNotWhitelistedMessage := "rpc method is not whitelisted",
    tooManyBatchRequestsMessage := "too many batch requests" }

def baseBackendConfig : BackendConfig :=
  { rpcURL := "http://localhost:8545", wsURL := "", username := "", password := "" }

def baseGroupConfig : BackendGroupConfig :=
  { backends := ["main"], consensusAware := false, consensusAsyncHandler := "",
    consensusBanPeriod := 0, consensusMaxUpdateThreshold := 0,
    consensusMaxBlockLag := 0, consensusMinPeerCount := 0 }

/-- A minimal configuration that passes every start-up validation. -/
def baseConfig : Config :=
  { backends := [("main", baseBackendConfig)],
    backendGroups := [("main", baseGroupConfig)],
    rpcMethodMappings := [("eth_chainId", "main")],
    authentication := none,
    redis := { url := "" },
    rateLimit := { useRedis := false, enableBackendRateLimiter := false, errorMessage := "" },
    whitelistErrorMessage := "",
    batchConfig := { errorMessage := "" },
    senderRateLimit := { enabled := false, limit := 0, interval := 0 },
    server := { wsPort := 0, maxConcurrentRPCs := 0 },
    wsBackendGroup := "",
    cache := { enabled := false, blockSyncRPCURL := "", numBlockConfirmations := 0 } }

def noBackendsConfig : Config := { baseConfig with backends := [] }

def aliasNoneConfig : Config :=
  { baseConfig with authentication := some [("secret1", "none")] }

def secretNoneConfig : Config :=
  { baseConfig with authentication := some [("none", "admin")] }

def senderBadConfig : Config :=
  { baseConfig with senderRateLimit := { enabled := true, limit := 0, interval := 1000000000 } }

def customMessagesConfig : Config :=
  { baseConfig with
      rateLimit := { useRedis := false, enableBackendRateLimiter := false,
                     errorMessage := "custom rate limit message" } }

def cacheNoSyncConfig : Config :=
  { baseConfig with cache := { enabled := true, blockSyncRPCURL := "",
                               numBlockConfirmations := 0 } }

def exEnv : Env :=
  fun s => if s = "FOO" then "$BAR" else if s = "BAR" then "baz" else ""

/-- Resolving a config value and then resolving the resolved value again. -/
def resolveTwice (env : Env) (v : String) : Except StartError String :=
  match ReadFromEnvOrConfig env v with
  | .error e => .error e
  | .ok w => ReadFromEnvOrConfig env w

def constEnv : Env := fun _ => "resolved"

def consensusGroupConfig : BackendGroupConfig :=
  { backends := ["main"], consensusAware := true, consensusAsyncHandler := "noop",
    consensusBanPeriod := 300000000000, consensusMaxUpdateThreshold := 120000000000,
    consensusMaxBlockLag := 8, consensusMinPeerCount := 4 }

def consensusConfig : Config :=
  { baseConfig with backendGroups := [("main", consensusGroupConfig)] }

def fallbackResult : StartResult :=
  { backendRateLimiter := .noopBackendRateLimiter, semaphoreCapacity := 0,
    backends := [], groups := [], wsGroup := none, resolvedAuth := none, rpcCache := none }

def consensusStartResult : StartResult :=
  ((start consensusConfig emptyEnv defaultGlobals).2.toOption).getD fallbackResult

def baseStartResult : StartResult :=
  ((start baseConfig emptyEnv defaultGlobals).2.toOption).getD fallbackResult

def useRedisNoURLConfig : Config :=
  { baseConfig with rateLimit := { useRedis := true, enableBackendRateLimiter := false,
                                   errorMessage := "" } }

/-! Helper lemmas about the loop combinator and association lists. -/

theorem exceptMapM_ok_forall2 {ε α β : Type} {f : α → Except ε β} {l : List α} {l2 : List β}
    (h : exceptMapM f l = .ok l2) : List.Forall₂ (fun a b => f a = .ok b) l l2 := by
  induction l generalizing l2 with
  | nil =>
    simp only [exceptMapM] at h
    injection h with h
    subst h
    exact List.Forall₂.nil
  | cons x xs ih =>
    simp only [exceptMapM] at h
    cases hfx : f x with
    | error e => rw [hfx] at h; exact Except.noConfusion h
    | ok b =>
      rw [hfx] at h
      cases hrest : exceptMapM f xs with
      | error e => rw [hrest] at h; exact Except.noConfusion h
      | ok bs =>
        rw [hrest] at h
        injection h with h
        subst h
        exact List.Forall₂.cons hfx (ih hrest)

theorem exceptMapM_ok_mem {ε α β : Type} {f : α → Except ε β} {l : List α} {l2 : List β}
    (h : exceptMapM f l = .ok l2) : ∀ a ∈ l, ∃ b, f a = .ok b := by
  have hf := exceptMapM_ok_forall2 h
  clear h
  induction hf with
  | nil => intro a ha; cases ha
  | cons hfx _ ih =>
    intro a ha
    rcases List.mem_cons.mp ha with h1 | h2
    · subst h1; exact ⟨_, hfx⟩
    · exact ih a h2

theorem exceptMap_ok {ε α β : Type} {f : α → β} {x : Except ε α} {y : β}
    (h : x.map f = .ok y) : ∃ z, x = .ok z ∧ f z = y := by
  cases x with
  | error e => exact Except.noConfusion h
  | ok z =>
    refine ⟨z, rfl, ?_⟩
    simpa [Except.map] using h

theorem forall2_fst_eq {α β : Type} {R : (String × α) → (String × β) → Prop}
    (hR : ∀ a b, R a b → b.1 = a.1) :
    ∀ {l : List (String × α)} {l2 : List (String × β)}, List.Forall₂ R l l2 →
      l2.map Prod.fst = l.map Prod.fst := by
  intro l l2 h
  induction h with
  | nil => rfl
  | cons hab _ ih => simp [ih, hR _ _ hab]

theorem lookup_isSome_of_fst_eq {α β : Type} :
    ∀ {l : List (String × α)} {l2 : List (String × β)},
      l2.map Prod.fst = l.map Prod.fst → ∀ k : String,
      (List.lookup k l2).isSome = (List.lookup k l).isSome := by
  intro l
  induction l with
  | nil =>
    intro l2 h k
    cases l2 with
    | nil => rfl
    | cons q qs => simp at h
  | cons p ps ih =>
    intro l2 h k
    cases l2 with
    | nil => simp at h
    | cons q qs =>
      obtain ⟨q1, q2⟩ := q
      obtain ⟨p1, p2⟩ := p
      simp only [List.map_cons, List.cons.injEq] at h
      obtain ⟨h1, h2⟩ := h
      subst h1
      simp only [List.lookup]
      cases hbeq : (k == q1) with
      | true => rfl
      | false => exact ih h2 k

/-! Inversion lemmas for the pipeline stages. -/

theorem startPreGlobals_ok {cfg : Config} {env : Env} {lim : BackendRateLimiter}
    (h : startPreGlobals cfg env = .ok lim) :
    cfg.backends ≠ [] ∧
    cfg.backendGroups ≠ [] ∧
    cfg.rpcMethodMappings ≠ [] ∧
    (∀ a b, (a, b) ∈ authEntries cfg → a ≠ "none") ∧
    (cfg.rateLimit.useRedis = true → redisConfigured cfg = true) ∧
    lim = chooseBackendRateLimiter cfg := by
  unfold startPreGlobals at h
  split at h
  · exact Except.noConfusion h
  rename_i h1
  split at h
  · exact Except.noConfusion h
  rename_i h2
  split at h
  · exact Except.noConfusion h
  rename_i h3
  split at h
  · exact Except.noConfusion h
  rename_i h4
  split at h
  · exact Except.noConfusion h
  rename_i v heq
  split at h
  · exact Except.noConfusion h
  rename_i h5
  injection h with h
  refine ⟨by simpa using h1, by simpa using h2, by simpa using h3, ?_, ?_, h.symm⟩
  · intro a b hmem hcontra
    exact h4 (List.any_eq_true.mpr ⟨(a, b), hmem, by simp [hcontra]⟩)
  · intro hu
    cases hrc : redisConfigured cfg with
    | true => rfl
    | false => exact absurd (by simp [hrc, hu]) h5

theorem start_ok {cfg : Config} {env : Env} {g : ErrorGlobals} {r : StartResult}
    (h : (start cfg env g).2 = .ok r) :
    ∃ lim, startPreGlobals cfg env = .ok lim ∧ startPostGlobals cfg env lim = .ok r := by
  unfold start at h
  split at h
  · exact Except.noConfusion h
  · rename_i lim heq
    exact ⟨lim, heq, h⟩

theorem start_fst_of_pre_ok {cfg : Config} {env : Env} {g : ErrorGlobals}
    {lim : BackendRateLimiter} (h : startPreGlobals cfg env = .ok lim) :
    (start cfg env g).1 = applyErrorMessages cfg g := by
  unfold start
  rw [h]

theorem startPostGlobals_ok {cfg : Config} {env : Env} {lim : BackendRateLimiter}
    {r : StartResult} (h : startPostGlobals cfg env lim = .ok r) :
    (cfg.senderRateLimit.enabled = true → 0 < cfg.senderRateLimit.limit) ∧
    (cfg.senderRateLimit.enabled = true → oneSecond ≤ cfg.senderRateLimit.interval) ∧
    ∃ backendsByName groups wsGroup resolvedAuth rpcCache,
      resolveBackends env cfg.backends = .ok backendsByName ∧
      buildGroups backendsByName cfg.backendGroups = .ok groups ∧
      resolveWSGroup cfg groups = .ok wsGroup ∧
      (wsGroup.isNone && (cfg.server.wsPort != 0)) = false ∧
      checkMappings groups cfg.rpcMethodMappings = .ok () ∧
      resolveAuth env cfg.authentication = .ok resolvedAuth ∧
      buildRPCCache env cfg = .ok rpcCache ∧
      r = { backendRateLimiter := lim,
            semaphoreCapacity :=
              if cfg.server.maxConcurrentRPCs = 0 then maxInt64
              else cfg.server.maxConcurrentRPCs,
            backends := backendsByName,
            groups := attachConsensus cfg.backendGroups groups,
            wsGroup := wsGroup,
            resolvedAuth := resolvedAuth,
            rpcCache := rpcCache } := by
  unfold startPostGlobals at h
  split at h
  · exact Except.noConfusion h
  rename_i hs1
  split at h
  · exact Except.noConfusion h
  rename_i hs2
  split at h
  · exact Except.noConfusion h
  rename_i bbn hbbn
  split at h
  · exact Except.noConfusion h
  rename_i grs hgrs
  split at h
  · exact Except.noConfusion h
  rename_i wsg hwsg
  split at h
  · exact Except.noConfusion h
  rename_i hws
  split at h
  · exact Except.noConfusion h
  rename_i u hmap
  split at h
  · exact Except.noConfusion h
  rename_i auth hauth
  split at h
  · exact Except.noConfusion h
  rename_i cac hcac
  injection h with h
  refine ⟨?_, ?_, bbn, grs, wsg, auth, cac, hbbn, hgrs, hwsg,
          by simpa using hws, ?_, hauth, hcac, h.symm⟩
  · intro he
    by_contra hlt
    exact hs1 (by rw [he]; simp [not_lt.mp hlt])
  · intro he
    by_contra hlt
    exact hs2 (by rw [he]; simp [not_le.mp hlt])
  · cases u
    exact hmap

theorem resolveBackend_ok_rpcURL {env : Env} {name : String} {bc : BackendConfig}
    {b : Backend} (h : resolveBackend env name bc = .ok b) :
    ReadFromEnvOrConfig env bc.rpcURL ≠ .ok "" := by
  intro hurl
  unfold resolveBackend at h
  rw [hurl] at h
  cases hws : ReadFromEnvOrConfig env bc.wsURL with
  | error e => rw [hws] at h; exact Except.noConfusion h
  | ok w =>
    rw [hws] at h
    simp at h

theorem resolveBackends_fst {env : Env} {l : List (String × BackendConfig)}
    {l2 : List (String × Backend)} (h : resolveBackends env l = .ok l2) :
    l2.map Prod.fst = l.map Prod.fst := by
  unfold resolveBackends at h
  refine forall2_fst_eq ?_ (exceptMapM_ok_forall2 h)
  intro a b hab
  obtain ⟨z, _, hz⟩ := exceptMap_ok hab
  rw [← hz]

theorem buildGroups_fst {backendsByName : List (String × Backend)}
    {l : List (String × BackendGroupConfig)} {l2 : List (String × BackendGroup)}
    (h : buildGroups backendsByName l = .ok l2) :
    l2.map Prod.fst = l.map Prod.fst := by
  unfold buildGroups at h
  refine forall2_fst_eq ?_ (exceptMapM_ok_forall2 h)
  intro a b hab
  obtain ⟨z, _, hz⟩ := exceptMap_ok hab
  rw [← hz]

theorem buildGroup_ok_backends {backendsByName : List (String × Backend)} {bgName : String}
    {bg : BackendGroupConfig} {grp : BackendGroup}
    (h : buildGroup backendsByName bgName bg = .ok grp) :
    (∀ bName ∈ bg.backends, (List.lookup bName backendsByName).isSome = true) ∧
    grp.consensus = none := by
  unfold buildGroup at h
  split at h
  · exact Except.noConfusion h
  rename_i backs hbacks
  injection h with h
  refine ⟨?_, by rw [← h]⟩
  intro bName hmem
  obtain ⟨b, hb⟩ := exceptMapM_ok_mem hbacks bName hmem
  cases hlk : List.lookup bName backendsByName with
  | none => rw [hlk] at hb; exact Except.noConfusion hb
  | some x => rfl

theorem buildGroups_lookup {backendsByName : List (String × Backend)} :
    ∀ {l : List (String × BackendGroupConfig)} {groups : List (String × BackendGroup)},
      buildGroups backendsByName l = .ok groups →
      ∀ k bgcfg, List.lookup k l = some bgcfg →
        ∃ grp, List.lookup k groups = some grp ∧ buildGroup backendsByName k bgcfg = .ok grp := by
  intro l
  induction l with
  | nil =>
    intro groups h k bgcfg hk
    exact Option.noConfusion hk
  | cons p ps ih =>
    intro groups h k bgcfg hk
    obtain ⟨p1, p2⟩ := p
    unfold buildGroups at h ih
    simp only [exceptMapM] at h
    cases hf : (buildGroup backendsByName p1 p2).map (fun g => (p1, g)) with
    | error e => rw [hf] at h; exact Except.noConfusion h
    | ok q =>
      rw [hf] at h
      cases hrest : exceptMapM
          (fun p => (buildGroup backendsByName p.1 p.2).map (fun g => (p.1, g))) ps with
      | error e => rw [hrest] at h; exact Except.noConfusion h
      | ok qs =>
        rw [hrest] at h
        injection h with h
        subst h
        obtain ⟨grp0, hgrp0, hq⟩ := exceptMap_ok hf
        simp only [List.lookup] at hk ⊢
        rw [← hq]
        cases hbeq : (k == p1) with
        | true =>
          rw [hbeq] at hk
          injection hk with hk
          subst hk
          have hkp : k = p1 := by simpa using hbeq
          subst hkp
          exact ⟨grp0, rfl, hgrp0⟩
        | false =>
          rw [hbeq] at hk
          exact ih hrest k bgcfg hk

theorem attachConsensusEntry_fst (cfgGroups : List (String × BackendGroupConfig))
    (p : String × BackendGroup) : (attachConsensusEntry cfgGroups p).1 = p.1 := by
  unfold attachConsensusEntry
  split
  · split
    · rfl
    · rfl
  · rfl

theorem attachConsensusEntry_eta (cfgGroups : List (String × BackendGroupConfig))
    (a : String) (b : BackendGroup) :
    attachConsensusEntry cfgGroups (a, b) = (a, (attachConsensusEntry cfgGroups (a, b)).2) := by
  conv_lhs => rw [← Prod.mk.eta (p := attachConsensusEntry cfgGroups (a, b))]
  rw [attachConsensusEntry_fst cfgGroups (a, b)]

theorem lookup_attachConsensus (cfgGroups : List (String × BackendGroupConfig)) :
    ∀ (groups : List (String × BackendGroup)) (k : String),
      List.lookup k (attachConsensus cfgGroups groups) =
        (List.lookup k groups).map (fun g => (attachConsensusEntry cfgGroups (k, g)).2) := by
  intro groups
  induction groups with
  | nil => intro k; rfl
  | cons p ps ih =>
    intro k
    obtain ⟨a, b⟩ := p
    simp only [attachConsensus, List.map_cons]
    rw [attachConsensusEntry_eta]
    simp only [List.lookup]
    cases hbeq : (k == a) with
    | true =>
      have hk : k = a := by simpa using hbeq
      subst hk
      rfl
    | false => exact ih k

/-! Classification of the errors each stage can produce. -/

theorem exceptMapM_error_mem {ε α β : Type} {f : α → Except ε β} {l : List α} {e : ε}
    (h : exceptMapM f l = .error e) : ∃ a ∈ l, f a = .error e := by
  induction l with
  | nil => exact Except.noConfusion h
  | cons x xs ih =>
    simp only [exceptMapM] at h
    cases hfx : f x with
    | error e2 =>
      rw [hfx] at h
      injection h with h
      subst h
      exact ⟨x, by simp, hfx⟩
    | ok b =>
      rw [hfx] at h
      cases hrest : exceptMapM f xs with
      | error e2 =>
        rw [hrest] at h
        injection h with h
        subst h
        obtain ⟨a, ha, hfa⟩ := ih hrest
        exact ⟨a, by simp [ha], hfa⟩
      | ok bs => rw [hrest] at h; exact Except.noConfusion h

theorem exceptMap_error {ε α β : Type} {f : α → β} {x : Except ε α} {e : ε}
    (h : x.map f = .error e) : x = .error e := by
  cases x with
  | error e2 =>
    have : Except.error (α := α) e2 = .error e := by
      simpa [Except.map] using h
    exact this
  | ok z => simp [Except.map] at h

theorem ReadFromEnvOrConfig_error {env : Env} {v : String} {e : StartError}
    (h : ReadFromEnvOrConfig env v = .error e) : e = .envVarNotFound v := by
  unfold ReadFromEnvOrConfig at h
  split at h
  · split at h
    · injection h with h; exact h.symm
    · exact Except.noConfusion h
  · exact Except.noConfusion h

theorem resolveBackend_error {env : Env} {n : String} {bc : BackendConfig} {e : StartError}
    (h : resolveBackend env n bc = .error e) :
    (∃ s, e = .envVarNotFound s) ∨ e = .emptyRPCURL n := by
  unfold resolveBackend at h
  split at h
  · rename_i e2 heq
    injection h with h
    subst h
    exact .inl ⟨_, ReadFromEnvOrConfig_error heq⟩
  rename_i rpcURL hrpc
  split at h
  · rename_i e2 heq
    injection h with h
    subst h
    exact .inl ⟨_, ReadFromEnvOrConfig_error heq⟩
  rename_i wsURL hws
  split at h
  · injection h with h; exact .inr h.symm
  split at h
  · rename_i e2 heq
    injection h with h
    subst h
    split at heq
    · exact .inl ⟨_, ReadFromEnvOrConfig_error heq⟩
    · exact Except.noConfusion heq
  · exact Except.noConfusion h

theorem resolveBackends_error {env : Env} {l : List (String × BackendConfig)} {e : StartError}
    (h : resolveBackends env l = .error e) :
    (∃ s, e = .envVarNotFound s) ∨ (∃ n, e = .emptyRPCURL n) := by
  unfold resolveBackends at h
  obtain ⟨p, _, hp⟩ := exceptMapM_error_mem h
  rcases resolveBackend_error (exceptMap_error hp) with ⟨s, hs⟩ | hn
  · exact .inl ⟨s, hs⟩
  · exact .inr ⟨p.1, hn⟩

theorem buildGroups_error {backendsByName : List (String × Backend)}
    {l : List (String × BackendGroupConfig)} {e : StartError}
    (h : buildGroups backendsByName l = .error e) : ∃ n, e = .undefinedBackend n := by
  unfold buildGroups at h
  obtain ⟨p, _, hp⟩ := exceptMapM_error_mem h
  have hg := exceptMap_error hp
  unfold buildGroup at hg
  split at hg
  · rename_i e2 heq
    injection hg with hg
    subst hg
    obtain ⟨bName, _, hb⟩ := exceptMapM_error_mem heq
    cases hlk : List.lookup bName backendsByName with
    | none =>
      rw [hlk] at hb
      injection hb with hb
      exact ⟨bName, hb.symm⟩
    | some b => rw [hlk] at hb; exact Except.noConfusion hb
  · exact Except.noConfusion hg

theorem resolveWSGroup_error {cfg : Config} {groups : List (String × BackendGroup)}
    {e : StartError} (h : resolveWSGroup cfg groups = .error e) :
    e = .undefinedWSGroup cfg.wsBackendGroup := by
  unfold resolveWSGroup at h
  split at h
  · split at h
    · injection h with h; exact h.symm
    · exact Except.noConfusion h
  · exact Except.noConfusion h

theorem checkMappings_error {groups : List (String × BackendGroup)}
    {mappings : List (String × String)} {e : StartError}
    (h : checkMappings groups mappings = .error e) : ∃ n, e = .undefinedBackendGroup n := by
  unfold checkMappings at h
  split at h
  · rename_i e2 heq
    injection h with h
    subst h
    obtain ⟨m, _, hm⟩ := exceptMapM_error_mem heq
    cases hlk : List.lookup m.2 groups with
    | none =>
      rw [hlk] at hm
      injection hm with hm
      exact ⟨m.2, hm.symm⟩
    | some g => rw [hlk] at hm; exact Except.noConfusion hm
  · exact Except.noConfusion h

theorem resolveAuth_error {env : Env} {auth : Option (List (String × String))} {e : StartError}
    (h : resolveAuth env auth = .error e) : ∃ s, e = .envVarNotFound s := by
  unfold resolveAuth at h
  split at h
  · exact Except.noConfusion h
  · split at h
    · rename_i e2 heq
      injection h with h
      subst h
      obtain ⟨p, _, hp⟩ := exceptMapM_error_mem heq
      exact ⟨_, ReadFromEnvOrConfig_error (exceptMap_error hp)⟩
    · exact Except.noConfusion h

theorem buildRPCCache_error {env : Env} {cfg : Config} {e : StartError}
    (h : buildRPCCache env cfg = .error e) :
    e = .blockSyncRequired ∨ ∃ s, e = .envVarNotFound s := by
  unfold buildRPCCache at h
  split at h
  · split at h
    · injection h with h; exact .inl h.symm
    · split at h
      · rename_i e2 heq
        injection h with h
        subst h
        exact .inr ⟨_, ReadFromEnvOrConfig_error heq⟩
      · exact Except.noConfusion h
  · exact Except.noConfusion h

theorem checkMappings_ok_mem {groups : List (String × BackendGroup)}
    {mappings : List (String × String)} (h : checkMappings groups mappings = .ok ()) :
    ∀ m ∈ mappings, (List.lookup m.2 groups).isSome = true := by
  intro m hm
  unfold checkMappings at h
  split at h
  · exact Except.noConfusion h
  rename_i u hmm
  obtain ⟨b, hb⟩ := exceptMapM_ok_mem hmm m hm
  cases hlk : List.lookup m.2 groups with
  | none => rw [hlk] at hb; exact Except.noConfusion hb
  | some g2 => rfl

theorem startPreGlobals_error {cfg : Config} {env : Env} {e : StartError}
    (h : startPreGlobals cfg env = .error e) :
    (e = .noneAuthKey → ∃ b, ("none", b) ∈ authEntries cfg) ∧
    e ≠ .senderRateLimitLimitInvalid ∧
    e ≠ .senderRateLimitIntervalInvalid := by
  unfold startPreGlobals at h
  split at h
  · injection h with h
    subst h
    exact ⟨fun hc => StartError.noConfusion hc, fun hc => StartError.noConfusion hc,
           fun hc => StartError.noConfusion hc⟩
  split at h
  · injection h with h
    subst h
    exact ⟨fun hc => StartError.noConfusion hc, fun hc => StartError.noConfusion hc,
           fun hc => StartError.noConfusion hc⟩
  split at h
  · injection h with h
    subst h
    exact ⟨fun hc => StartError.noConfusion hc, fun hc => StartError.noConfusion hc,
           fun hc => StartError.noConfusion hc⟩
  split at h
  · rename_i hc
    injection h with h
    subst h
    refine ⟨fun _ => ?_, fun hcx => StartError.noConfusion hcx,
            fun hcx => StartError.noConfusion hcx⟩
    obtain ⟨p, hp, hkey⟩ := List.any_eq_true.mp hc
    obtain ⟨a, b⟩ := p
    have ha : a = "none" := by simpa using hkey
    subst ha
    exact ⟨b, hp⟩
  split at h
  · rename_i e2 heq
    injection h with h
    subst h
    split at heq
    · have he := ReadFromEnvOrConfig_error (exceptMap_error heq)
      subst he
      exact ⟨fun hc => StartError.noConfusion hc, fun hc => StartError.noConfusion hc,
             fun hc => StartError.noConfusion hc⟩
    · exact Except.noConfusion heq
  split at h
  · injection h with h
    subst h
    exact ⟨fun hc => StartError.noConfusion hc, fun hc => StartError.noConfusion hc,
           fun hc => StartError.noConfusion hc⟩
  · exact Except.noConfusion h

theorem startPostGlobals_error {cfg : Config} {env : Env} {lim : BackendRateLimiter}
    {e : StartError} (h : startPostGlobals cfg env lim = .error e) :
    (e = .senderRateLimitLimitInvalid →
       cfg.senderRateLimit.enabled = true ∧ cfg.senderRateLimit.limit ≤ 0) ∧
    (e = .senderRateLimitIntervalInvalid →
       cfg.senderRateLimit.enabled = true ∧ cfg.senderRateLimit.interval < oneSecond) ∧
    e ≠ .noneAuthKey := by
  unfold startPostGlobals at h
  split at h
  · rename_i hc
    injection h with h
    subst h
    have h1 : cfg.senderRateLimit.enabled = true := by
      cases he : cfg.senderRateLimit.enabled with
      | true => rfl
      | false => rw [he] at hc; simp at hc
    have h2 : cfg.senderRateLimit.limit ≤ 0 := by
      rw [h1] at hc
      simpa using hc
    exact ⟨fun _ => ⟨h1, h2⟩, fun hcx => StartError.noConfusion hcx,
           fun hcx => StartError.noConfusion hcx⟩
  split at h
  · rename_i hc
    injection h with h
    subst h
    have h1 : cfg.senderRateLimit.enabled = true := by
      cases he : cfg.senderRateLimit.enabled with
      | true => rfl
      | false => rw [he] at hc; simp at hc
    have h2 : cfg.senderRateLimit.interval < oneSecond := by
      rw [h1] at hc
      simpa using hc
    exact ⟨fun hcx => StartError.noConfusion hcx, fun _ => ⟨h1, h2⟩,
           fun hcx => StartError.noConfusion hcx⟩
  split at h
  · rename_i e2 heq
    injection h with h
    subst h
    rcases resolveBackends_error heq with ⟨s, rfl⟩ | ⟨n, rfl⟩ <;>
      exact ⟨fun hcx => StartError.noConfusion hcx, fun hcx => StartError.noConfusion hcx,
             fun hcx => StartError.noConfusion hcx⟩
  split at h
  · rename_i e2 heq
    injection h with h
    subst h
    obtain ⟨n, rfl⟩ := buildGroups_error heq
    exact ⟨fun hcx => StartError.noConfusion hcx, fun hcx => StartError.noConfusion hcx,
           fun hcx => StartError.noConfusion hcx⟩
  split at h
  · rename_i e2 heq
    injection h with h
    subst h
    have he := resolveWSGroup_error heq
    subst he
    exact ⟨fun hcx => StartError.noConfusion hcx, fun hcx => StartError.noConfusion hcx,
           fun hcx => StartError.noConfusion hcx⟩
  split at h
  · injection h with h
    subst h
    exact ⟨fun hcx => StartError.noConfusion hcx, fun hcx => StartError.noConfusion hcx,
           fun hcx => StartError.noConfusion hcx⟩
  split at h
  · rename_i e2 heq
    injection h with h
    subst h
    obtain ⟨n, rfl⟩ := checkMappings_error heq
    exact ⟨fun hcx => StartError.noConfusion hcx, fun hcx => StartError.noConfusion hcx,
           fun hcx => StartError.noConfusion hcx⟩
  split at h
  · rename_i e2 heq
    injection h with h
    subst h
    obtain ⟨s, rfl⟩ := resolveAuth_error heq
    exact ⟨fun hcx => StartError.noConfusion hcx, fun hcx => StartError.noConfusion hcx,
           fun hcx => StartError.noConfusion hcx⟩
  split at h
  · rename_i e2 heq
    injection h with h
    subst h
    rcases buildRPCCache_error heq with rfl | ⟨s, rfl⟩ <;>
      exact ⟨fun hcx => StartError.noConfusion hcx, fun hcx => StartError.noConfusion hcx,
             fun hcx => StartError.noConfusion hcx⟩
  · exact Except.noConfusion h

theorem attachConsensusEntry_consensus (cfgGroups : List (String × BackendGroupConfig))
    (k : String) (grp : BackendGroup) (bgcfg : BackendGroupConfig)
    (hk : List.lookup k cfgGroups = some bgcfg) :
    ((attachConsensusEntry cfgGroups (k, grp)).2).consensus =
      (if bgcfg.consensusAware then some { opts := consensusOptsFor bgcfg }
       else grp.consensus) := by
  unfold attachConsensusEntry
  split
  · rename_i bgcfg2 hlk2
    have hb2 : bgcfg2 = bgcfg := Option.some.inj (hlk2.symm.trans hk)
    subst hb2
    split
    · rfl
    · rfl
  · rename_i hlk2
    exact Option.noConfusion (hlk2.symm.trans hk)

/-- C1: `Start` fails on every start-up validation failure: when the config
defines no backends, no backend groups or no RPC method mappings; when a
backend group references an undefined backend; when an RPC method mapping
references an undefined group; and when a backend's RPC URL resolves to the
empty string. -/
theorem start_validation_failures (cfg : Config) (env : Env) (g : ErrorGlobals)
    (hbad :
      cfg.backends = [] ∨
      cfg.backendGroups = [] ∨
      cfg.rpcMethodMappings = [] ∨
      (∃ p ∈ cfg.backendGroups, ∃ bName ∈ p.2.backends,
        List.lookup bName cfg.backends = none) ∨
      (∃ m ∈ cfg.rpcMethodMappings, List.lookup m.2 cfg.backendGroups = none) ∨
      (∃ p ∈ cfg.backends, ReadFromEnvOrConfig env p.2.rpcURL = .ok "")) :
    isOkE (start cfg env g).2 = false := by
  cases hok : (start cfg env g).2 with
  | error e => rfl
  | ok r =>
    exfalso
    obtain ⟨lim, hpre, hpost⟩ := start_ok hok
    obtain ⟨hbe, hge, hme, _, _, _⟩ := startPreGlobals_ok hpre
    obtain ⟨_, _, bbn, grs, wsg, auth, cac, hrb, hbg, _, _, hcm, _, _, _⟩ :=
      startPostGlobals_ok hpost
    have hkeysB : bbn.map Prod.fst = cfg.backends.map Prod.fst := resolveBackends_fst hrb
    rcases hbad with h | h | h | h | h | h
    · exact hbe h
    · exact hge h
    · exact hme h
    · obtain ⟨p, hp, bName, hb, hnone⟩ := h
      obtain ⟨q, hq⟩ := exceptMapM_ok_mem hbg p hp
      obtain ⟨grp, hgrp, _⟩ := exceptMap_ok hq
      have hsome := (buildGroup_ok_backends hgrp).1 bName hb
      rw [lookup_isSome_of_fst_eq hkeysB bName, hnone] at hsome
      exact Bool.noConfusion hsome
    · obtain ⟨m, hm, hnone⟩ := h
      have hkeysG : grs.map Prod.fst = cfg.backendGroups.map Prod.fst := buildGroups_fst hbg
      have hsome := checkMappings_ok_mem hcm m hm
      rw [lookup_isSome_of_fst_eq hkeysG m.2, hnone] at hsome
      exact Bool.noConfusion hsome
    · obtain ⟨p, hp, hurl⟩ := h
      obtain ⟨q, hq⟩ := exceptMapM_ok_mem hrb p hp
      obtain ⟨b, hb, _⟩ := exceptMap_ok hq
      exact resolveBackend_ok_rpcURL hb hurl

/-- C1 witness: `Start` fails on the concrete configuration with an empty
backend list. -/
theorem start_validation_failures_witness :
    isOkE (start noBackendsConfig emptyEnv defaultGlobals).2 = false :=
  start_validation_failures noBackendsConfig emptyEnv defaultGlobals (Or.inl rfl)

/-- C2 counterexample: a configuration whose single authentication entry maps
the secret "secret1" to the ALIAS "none" starts successfully, refuting the
claim that `Start` fails when an alias is "none" (the source checks the map
key, i.e. the secret, not the alias). -/
theorem start_alias_none_accepted :
    aliasNoneConfig.authentication = some [("secret1", "none")] ∧
    isOkE (start aliasNoneConfig emptyEnv defaultGlobals).2 = true :=
  ⟨rfl, by decide⟩

/-- C2 (amended): for every entry of the authentication map (secret → alias),
`Start` fails when the SECRET (the map key) is "none", and the
cannot-use-none error arises only from such an entry; aliases are not
restricted. -/
theorem start_none_auth_key (cfg : Config) (env : Env) (g : ErrorGlobals) :
    ((∃ b, ("none", b) ∈ authEntries cfg) → isOkE (start cfg env g).2 = false) ∧
    ((start cfg env g).2 = .error .noneAuthKey → ∃ b, ("none", b) ∈ authEntries cfg) := by
  constructor
  · intro hnone
    cases hok : (start cfg env g).2 with
    | error e => rfl
    | ok r =>
      exfalso
      obtain ⟨lim, hpre, _⟩ := start_ok hok
      obtain ⟨_, _, _, hauth, _, _⟩ := startPreGlobals_ok hpre
      obtain ⟨b, hb⟩ := hnone
      exact hauth "none" b hb rfl
  · intro h
    unfold start at h
    split at h
    · rename_i e2 hpre
      have he2 : e2 = StartError.noneAuthKey := Except.error.inj h
      subst he2
      exact (startPreGlobals_error hpre).1 rfl
    · rename_i lim hpre
      exact absurd rfl (startPostGlobals_error h).2.2

/-- C2 witness: `Start` fails on the concrete configuration whose
authentication entry has the secret "none". -/
theorem start_none_auth_key_witness :
    isOkE (start secretNoneConfig emptyEnv defaultGlobals).2 = false :=
  (start_none_auth_key secretNoneConfig emptyEnv defaultGlobals).1 ⟨"admin", by decide⟩

/-- C3 counterexample: with the sender rate limit DISABLED, a configuration
whose sender interval (0 ns) is below one second and whose limit is 0 starts
successfully, refuting the unconditional reading of the claim. -/
theorem start_sender_settings_ignored_when_disabled :
    baseConfig.senderRateLimit.interval < oneSecond ∧
    baseConfig.senderRateLimit.limit ≤ 0 ∧
    baseConfig.senderRateLimit.enabled = false ∧
    isOkE (start baseConfig emptyEnv defaultGlobals).2 = true :=
  ⟨by decide, by decide, rfl, by decide⟩

/-- C3 (amended): when the sender rate limit is ENABLED, `Start` fails
whenever the configured limit is ≤ 0 or the interval is below one second, and
these two start-up errors occur only under those conditions — otherwise the
settings are accepted. -/
theorem start_sender_rate_limit_validation (cfg : Config) (env : Env) (g : ErrorGlobals) :
    (cfg.senderRateLimit.enabled = true ∧
       (cfg.senderRateLimit.limit ≤ 0 ∨ cfg.senderRateLimit.interval < oneSecond) →
       isOkE (start cfg env g).2 = false) ∧
    ((start cfg env g).2 = .error .senderRateLimitLimitInvalid →
       cfg.senderRateLimit.enabled = true ∧ cfg.senderRateLimit.limit ≤ 0) ∧
    ((start cfg env g).2 = .error .senderRateLimitIntervalInvalid →
       cfg.senderRateLimit.enabled = true ∧ cfg.senderRateLimit.interval < oneSecond) := by
  refine ⟨?_, ?_, ?_⟩
  · rintro ⟨hen, hbad⟩
    cases hok : (start cfg env g).2 with
    | error e => rfl
    | ok r =>
      exfalso
      obtain ⟨lim, hpre, hpost⟩ := start_ok hok
      obtain ⟨hs1, hs2, _⟩ := startPostGlobals_ok hpost
      rcases hbad with h | h
      · exact absurd (hs1 hen) (not_lt.mpr h)
      · exact absurd (hs2 hen) (not_le.mpr h)
  · intro h
    unfold start at h
    split at h
    · rename_i e2 hpre
      have he2 : e2 = StartError.senderRateLimitLimitInvalid := Except.error.inj h
      subst he2
      exact absurd rfl (startPreGlobals_error hpre).2.1
    · exact (startPostGlobals_error h).1 rfl
  · intro h
    unfold start at h
    split at h
    · rename_i e2 hpre
      have he2 : e2 = StartError.senderRateLimitIntervalInvalid := Except.error.inj h
      subst he2
      exact absurd rfl (startPreGlobals_error hpre).2.2
    · exact (startPostGlobals_error h).2.1 rfl

/-- C3 witness: `Start` fails on the concrete configuration with the sender
rate limit enabled and a limit of 0. -/
theorem start_sender_rate_limit_validation_witness :
    isOkE (start senderBadConfig emptyEnv defaultGlobals).2 = false :=
  (start_sender_rate_limit_validation senderBadConfig emptyEnv defaultGlobals).1
    ⟨rfl, Or.inl (by decide)⟩

/-- C4 counterexample: a single `Start` invocation with a configured
rate-limit error message leaves the global error state different from what it
was before the call, refuting the claim that no global error value is
modified. -/
theorem start_mutates_error_globals :
    (start customMessagesConfig emptyEnv defaultGlobals).1 ≠ defaultGlobals := by decide

/-- C4 (amended): the user-visible messages for the rate-limit, whitelist and
batch-too-large conditions are taken from the config when set, but `Start`
applies them by assigning into the global error singletons: after any
invocation that reaches the assignment, each global message equals the
configured string when it is nonempty and keeps its previous value otherwise
(the formatter is not rebuilt per invocation). -/
theorem start_error_messages_from_config (cfg : Config) (env : Env) (g : ErrorGlobals)
    (lim : BackendRateLimiter) (hpre : startPreGlobals cfg env = .ok lim) :
    ((start cfg env g).1).overRateLimitMessage =
      (if cfg.rateLimit.errorMessage ≠ "" then cfg.rateLimit.errorMessage
       else g.overRateLimitMessage) ∧
    ((start cfg env g).1).methodNotWhitelistedMessage =
      (if cfg.whitelistErrorMessage ≠ "" then cfg.whitelistErrorMessage
       else g.methodNotWhitelistedMessage) ∧
    ((start cfg env g).1).tooManyBatchRequestsMessage =
      (if cfg.batchConfig.errorMessage ≠ "" then cfg.batchConfig.errorMessage
       else g.tooManyBatchRequestsMessage) := by
  rw [start_fst_of_pre_ok hpre]
  unfold applyErrorMessages
  by_cases h1 : cfg.rateLimit.errorMessage ≠ "" <;>
  by_cases h2 : cfg.whitelistErrorMessage ≠ "" <;>
  by_cases h3 : cfg.batchConfig.errorMessage ≠ "" <;>
    simp [h1, h2, h3]

/-- C4 witness: with the concrete configuration carrying a custom rate-limit
message, the global message after `Start` is the configured one. -/
theorem start_error_messages_from_config_witness :
    ((start customMessagesConfig emptyEnv defaultGlobals).1).overRateLimitMessage =
      (if customMessagesConfig.rateLimit.errorMessage ≠ ""
       then customMessagesConfig.rateLimit.errorMessage
       else defaultGlobals.overRateLimitMessage) :=
  (start_error_messages_from_config customMessagesConfig emptyEnv defaultGlobals
    BackendRateLimiter.noopBackendRateLimiter rfl).1

/-- C5: when caching is enabled, `Start` fails if no block-sync RPC URL is
configured; on success the RPC cache is built over the compression wrapper of
the Redis-backed store when a Redis client is configured and of the in-process
memory store when not. -/
theorem start_cache_construction (cfg : Config) (env : Env) (g : ErrorGlobals) :
    (cfg.cache.enabled = true ∧ cfg.cache.blockSyncRPCURL = "" →
       isOkE (start cfg env g).2 = false) ∧
    (∀ r, (start cfg env g).2 = .ok r → cfg.cache.enabled = true →
       r.rpcCache = some { store := CacheStore.withCompression
                             (if redisConfigured cfg then CacheKind.redisCache
                              else CacheKind.memoryCache),
                           numBlockConfirmations := cfg.cache.numBlockConfirmations }) := by
  constructor
  · rintro ⟨hen, hurl⟩
    cases hok : (start cfg env g).2 with
    | error e => rfl
    | ok r =>
      exfalso
      obtain ⟨lim, hpre, hpost⟩ := start_ok hok
      obtain ⟨_, _, bbn, grs, wsg, auth, cac, _, _, _, _, _, _, hcac, _⟩ :=
        startPostGlobals_ok hpost
      unfold buildRPCCache at hcac
      rw [hen, hurl] at hcac
      simp at hcac
  · intro r hok hen
    obtain ⟨lim, hpre, hpost⟩ := start_ok hok
    obtain ⟨_, _, bbn, grs, wsg, auth, cac, _, _, _, _, _, _, hcac, hr⟩ :=
      startPostGlobals_ok hpost
    subst hr
    unfold buildRPCCache at hcac
    split at hcac
    · split at hcac
      · exact Except.noConfusion hcac
      · split at hcac
        · exact Except.noConfusion hcac
        · exact (Except.ok.inj hcac).symm
    · rename_i hno
      exact absurd hen (by simpa using hno)

/-- C5 witness: `Start` fails on the concrete configuration with caching
enabled and no block-sync URL. -/
theorem start_cache_construction_witness :
    isOkE (start cacheNoSyncConfig emptyEnv defaultGlobals).2 = false :=
  (start_cache_construction cacheNoSyncConfig emptyEnv defaultGlobals).1 ⟨rfl, rfl⟩

/-- C6 counterexample: under the environment where FOO holds "$BAR" and BAR
holds "baz", resolving "$FOO" yields "$BAR", but resolving that already
resolved value again yields "baz": resolve(resolve(v)) ≠ resolve(v). -/
theorem readFromEnvOrConfig_not_idempotent :
    ReadFromEnvOrConfig exEnv "$FOO" = .ok "$BAR" ∧
    resolveTwice exEnv "$FOO" = .ok "baz" ∧
    ("baz" : String) ≠ "$BAR" :=
  ⟨rfl, rfl, by decide⟩

/-- C6 (amended): env-var substitution is idempotent provided no resolved
value itself begins with the `$` sigil: if no environment value starts with
`$`, then whenever a value resolves successfully, resolving the result again
yields it unchanged. -/
theorem readFromEnvOrConfig_idempotent (env : Env) (v w : String)
    (henv : ∀ k, startsWithDollar (env k) = false)
    (h : ReadFromEnvOrConfig env v = .ok w) :
    ReadFromEnvOrConfig env w = .ok w := by
  unfold ReadFromEnvOrConfig at h ⊢
  by_cases hv : startsWithDollar v = true
  · rw [if_pos hv] at h
    by_cases he : env (dropDollar v) = ""
    · rw [if_pos he] at h
      exact Except.noConfusion h
    · rw [if_neg he] at h
      injection h with h
      subst h
      rw [if_neg (by simp [henv])]
  · rw [if_neg hv] at h
    injection h with h
    subst h
    rw [if_neg hv]

/-- C6 witness: with a concrete environment free of `$`-prefixed values,
resolving the already-resolved value of "$X" yields itself. -/
theorem readFromEnvOrConfig_idempotent_witness :
    ReadFromEnvOrConfig constEnv "resolved" = .ok "resolved" :=
  readFromEnvOrConfig_idempotent constEnv "$X" "resolved" (fun _ => rfl) rfl

/-- C7: on a successful `Start`, every backend group configured with
consensus_aware = true — and only such a group — ends up with a consensus
poller in its Consensus field, carrying the options derived from the group's
configured async handler, ban period, update threshold, block lag and min
peer count; a group without the flag ends up with none. -/
theorem start_consensus_pollers (cfg : Config) (env : Env) (g : ErrorGlobals)
    (r : StartResult) (name : String) (bgcfg : BackendGroupConfig)
    (hok : (start cfg env g).2 = .ok r)
    (hk : List.lookup name cfg.backendGroups = some bgcfg) :
    ∃ grp, List.lookup name r.groups = some grp ∧
      grp.consensus = (if bgcfg.consensusAware
                       then some { opts := consensusOptsFor bgcfg } else none) := by
  obtain ⟨lim, hpre, hpost⟩ := start_ok hok
  obtain ⟨_, _, bbn, grs, wsg, auth, cac, _, hbg, _, _, _, _, _, hr⟩ :=
    startPostGlobals_ok hpost
  subst hr
  obtain ⟨grp0, hlk0, hbuild⟩ := buildGroups_lookup hbg name bgcfg hk
  have hcons0 : grp0.consensus = none := (buildGroup_ok_backends hbuild).2
  refine ⟨(attachConsensusEntry cfg.backendGroups (name, grp0)).2, ?_, ?_⟩
  · show List.lookup name (attachConsensus cfg.backendGroups grs) = _
    rw [lookup_attachConsensus, hlk0]
    rfl
  · rw [attachConsensusEntry_consensus cfg.backendGroups name grp0 bgcfg hk, hcons0]

/-- C7 witness: on the concrete consensus-aware configuration, the group
"main" holds a poller with exactly the options derived from its config. -/
theorem start_consensus_pollers_witness :
    (List.lookup "main" consensusStartResult.groups).map BackendGroup.consensus =
      some (some { opts := consensusOptsFor consensusGroupConfig }) := by
  obtain ⟨grp, h1, h2⟩ := start_consensus_pollers consensusConfig emptyEnv defaultGlobals
    consensusStartResult "main" consensusGroupConfig rfl rfl
  rw [h1]
  show some grp.consensus = _
  rw [h2]
  rfl

/-- C8: if the configured max_concurrent_rpcs is 0, `Start` creates the
global in-flight semaphore with capacity MaxInt64 (2^63 - 1), so a zero value
means effectively unlimited concurrency rather than zero capacity. -/
theorem start_semaphore_unlimited (cfg : Config) (env : Env) (g : ErrorGlobals)
    (r : StartResult) (hok : (start cfg env g).2 = .ok r)
    (h0 : cfg.server.maxConcurrentRPCs = 0) :
    r.semaphoreCapacity = maxInt64 := by
  obtain ⟨lim, hpre, hpost⟩ := start_ok hok
  obtain ⟨_, _, bbn, grs, wsg, auth, cac, _, _, _, _, _, _, _, hr⟩ :=
    startPostGlobals_ok hpost
  subst hr
  show (if cfg.server.maxConcurrentRPCs = 0 then maxInt64
        else cfg.server.maxConcurrentRPCs) = maxInt64
  rw [if_pos h0]

/-- C8 witness: the base configuration sets max_concurrent_rpcs = 0 and its
semaphore capacity is 2^63 - 1. -/
theorem start_semaphore_unlimited_witness :
    baseStartResult.semaphoreCapacity = maxInt64 :=
  start_semaphore_unlimited baseConfig emptyEnv defaultGlobals baseStartResult rfl rfl

/-- C9: `Start` errors when rate_limit.use_redis is true but no Redis URL is
configured; otherwise, on success, the backend rate limiter is the
Redis-backed one when the backend rate limiter is enabled and Redis is
configured, the local in-process one when enabled without Redis, and the
no-op one when enable_backend_rate_limiter is false. -/
theorem start_backend_rate_limiter_choice (cfg : Config) (env : Env) (g : ErrorGlobals) :
    (cfg.rateLimit.useRedis = true ∧ cfg.redis.url = "" →
       isOkE (start cfg env g).2 = false) ∧
    (∀ r, (start cfg env g).2 = .ok r →
       r.backendRateLimiter =
         (if cfg.rateLimit.enableBackendRateLimiter then
            (if redisConfigured cfg then BackendRateLimiter.redisRateLimiter
             else BackendRateLimiter.localBackendRateLimiter)
          else BackendRateLimiter.noopBackendRateLimiter)) := by
  constructor
  · rintro ⟨hu, hurl⟩
    cases hok : (start cfg env g).2 with
    | error e => rfl
    | ok r =>
      exfalso
      obtain ⟨lim, hpre, _⟩ := start_ok hok
      obtain ⟨_, _, _, _, hredis, _⟩ := startPreGlobals_ok hpre
      have hrc := hredis hu
      simp [redisConfigured, hurl] at hrc
  · intro r hok
    obtain ⟨lim, hpre, hpost⟩ := start_ok hok
    obtain ⟨_, _, _, _, _, hlim⟩ := startPreGlobals_ok hpre
    obtain ⟨_, _, bbn, grs, wsg, auth, cac, _, _, _, _, _, _, _, hr⟩ :=
      startPostGlobals_ok hpost
    subst hr
    show lim = _
    rw [hlim]
    rfl

/-- C9 witness: `Start` fails on the concrete configuration with use_redis set
and no Redis URL. -/
theorem start_backend_rate_limiter_choice_witness :
    isOkE (start useRedisNoURLConfig emptyEnv defaultGlobals).2 = false :=
  (start_backend_rate_limiter_choice useRedisNoURLConfig emptyEnv defaultGlobals).1 ⟨rfl, rfl⟩

/-- C10: the uint64 reader returned by makeUint64LastValueFn reports an error
— never a successful number — when the last-value cache read fails, when the
stored value is the empty string, and when the stored value does not parse as
a decimal uint64; and whenever it reports an error the returned number is 0. -/
theorem uint64LastValueRead_errors (key : String) (r : Except String String) :
    ((∃ e, r = .error e) ∨ r = .ok "" ∨ (∃ v, r = .ok v ∧ parseUint64 v = none) →
       ((uint64LastValueRead key r).2).isSome = true) ∧
    (((uint64LastValueRead key r).2).isSome = true → (uint64LastValueRead key r).1 = 0) := by
  constructor
  · intro h
    rcases h with ⟨e, rfl⟩ | rfl | ⟨v, rfl, hv⟩
    · rfl
    · rfl
    · by_cases hempty : v = ""
      · subst hempty; rfl
      · simp [uint64LastValueRead, hempty, hv]
  · intro h
    cases r with
    | error e => rfl
    | ok v =>
      by_cases hempty : v = ""
      · subst hempty; rfl
      · cases hp : parseUint64 v with
        | none => simp [uint64LastValueRead, hempty, hp]
        | some n =>
          exfalso
          simp [uint64LastValueRead, hempty, hp] at h

/-- C10 witness: on the unparsable stored value "abc", the reader reports an
error and the returned number is 0. -/
theorem uint64LastValueRead_errors_witness :
    ((uint64LastValueRead "lvc:block_number" (Except.ok "abc")).2).isSome = true ∧
    (uint64LastValueRead "lvc:block_number" (Except.ok "abc")).1 = 0 := by
  have h := uint64LastValueRead_errors "lvc:block_number" (Except.ok "abc")
  have h1 := h.1 (Or.inr (Or.inr ⟨"abc", rfl, by decide⟩))
  exact ⟨h1, h.2 h1⟩

end Proxyd
